import Mathlib

/-!
Shallow embedding of the pki-rs certificate path-validation core
(src/certificate/{mod,extension,validate,verify}.rs and src/signature/*),
together with theorems settling the frozen claims about it.

Modelling conventions:
* Byte strings are `List Nat`; object identifiers are `List Nat` of arcs.
* X.509 names are compared structurally in the source (`PartialEq` on the
  parsed `Name`); they are modelled as opaque tokens (`Nat`) with equality.
* Timestamps are `Int` (the source compares `SystemTime` values, a total
  order); `SystemTime::now()` becomes an explicit `now` parameter.
* The external ASN.1 codec and the cryptographic primitives
  (ed25519-dalek, the ecdsa/p256/p384 crates) are collaborators outside
  the repository; they enter the model as function parameters
  (`Decoders`, `Crypto`).  All cfg features (`ed25519`, `ecdsa`, `pem`,
  `signature`) are taken as enabled, the full build.
* Rust `Result` becomes `Except`; a Rust arithmetic overflow on `usize`
  (which panics under overflow checks) becomes the `Outcome.overflow`
  result of `validate_path`.
-/

namespace Pki

/-- Object identifier, as its list of arcs (models `const_oid::ObjectIdentifier`). -/
abbrev OID := List Nat

/-- Algorithm identifier: OID plus optional parameter bytes
(models `spki::AlgorithmIdentifier`; the source compares the whole
identifier with `!=`, i.e. OID and parameters). -/
structure AlgorithmIdentifier where
  oid : OID
  params : Option (List Nat)
deriving DecidableEq, Repr

/-- Ed25519 algorithm OID 1.3.101.112 (src/signature/ed25519.rs). -/
def ED_25519_OID : OID := [1, 3, 101, 112]

/-- ECDSA with SHA-256 OID 1.2.840.10045.4.3.2 (the `ecdsa` crate constant used in verify.rs). -/
def ECDSA_SHA256_OID : OID := [1, 2, 840, 10045, 4, 3, 2]

/-- ECDSA with SHA-384 OID 1.2.840.10045.4.3.3 (the `ecdsa` crate constant used in verify.rs). -/
def ECDSA_SHA384_OID : OID := [1, 2, 840, 10045, 4, 3, 3]

/-- BasicConstraints payload (models `x509_cert::ext::pkix::BasicConstraints`;
`path_len_constraint` is `Option<u8>` in the source). -/
structure BasicConstraints where
  ca : Bool
  path_len_constraint : Option Nat
deriving DecidableEq, Repr

/-- KeyUsage payload: a bit-flag set (models `x509_cert::ext::pkix::KeyUsage`,
a newtype over a flag word). -/
structure KeyUsage where
  bits : Nat
deriving DecidableEq, Repr

/-- Bit index of the keyCertSign flag in the KeyUsage flag word
(`KeyUsages::KeyCertSign`). -/
def keyCertSignBit : Nat := 5

/-- AuthorityKeyIdentifier payload (models
`x509_cert::ext::pkix::AuthorityKeyIdentifier`; only the two fields the
validator reads are kept). -/
structure AuthorityKeyIdentifier where
  key_identifier : Option (List Nat)
  authority_cert_serial_number : Option (List Nat)
deriving DecidableEq, Repr

/-- Typed extension: the seven-variant tagged union of
src/certificate/extension.rs.  The payloads of the variants the validator
never inspects structurally (ExtendedKeyUsage, SubjectAlternativeName,
SubjectKeyIdentifier, CertificatePolicies) are kept as decoded opaque
payloads (`List Nat`). -/
inductive Extension where
  | basicConstraints (bc : BasicConstraints)
  | keyUsage (ku : KeyUsage)
  | extendedKeyUsage (payload : List Nat)
  | subjectAlternativeName (payload : List Nat)
  | authorityKeyIdentifier (aki : AuthorityKeyIdentifier)
  | subjectKeyIdentifier (ski : List Nat)
  | certificatePolicies (payload : List Nat)
deriving DecidableEq, Repr

/-- Certificate-level error enum of src/certificate/mod.rs. -/
inductive CertError where
  | certificateImmature
  | certificateExpired
  | certificateInvalid
  | algorithmUnsupported
  | algorithmMismatch
  | basicConstraintsViolation
  | keyUsageViolation
  | issuerSubjectMismatch
  | authorityKeyIdentifierMismatch
  | unsupportedExtension (oid : OID)
deriving DecidableEq, Repr

/-- Signature-module error enum of src/signature/mod.rs (collapsed: the
wrapped collaborator payloads carry no information the claims need). -/
inductive SigError where
  | signatureMalformed
  | signatureFailure
  | pkcs8
  | asn1
deriving DecidableEq, Repr

/-- Crate-level error enum of src/error.rs. -/
inductive PkiError where
  | certificate (e : CertError)
  | signature (e : SigError)
  | spki
  | pkcs8
  | asn1
deriving DecidableEq, Repr

/-- Parsed certificate (models `pki_rs::certificate::Certificate`): the
fields of the inner `x509_cert::Certificate` that the core reads, plus
the typed `parsed_extensions`. -/
structure Certificate where
  subject : Nat
  issuer : Nat
  serialNumber : List Nat
  notBefore : Int
  notAfter : Int
  spkiAlg : AlgorithmIdentifier
  spkiKeyBytes : Option (List Nat)
  sigAlg : AlgorithmIdentifier
  sigBytes : Option (List Nat)
  tbsBytes : List Nat
  parsed_extensions : List Extension
deriving DecidableEq, Repr

/-- Chain container: ordered intermediates plus exactly one leaf
(src/certificate/mod.rs, `CertificateChain`). -/
structure CertificateChain where
  intermediates : List Certificate
  leaf : Certificate
deriving DecidableEq, Repr

/-- Typed getter: first BasicConstraints entry (extension.rs, `get_basic_constraints`). -/
def Certificate.get_basic_constraints (c : Certificate) : Option BasicConstraints :=
  c.parsed_extensions.findSome? fun
    | .basicConstraints bc => some bc
    | _ => none

/-- Typed getter: first KeyUsage entry (extension.rs, `get_key_usage`). -/
def Certificate.get_key_usage (c : Certificate) : Option KeyUsage :=
  c.parsed_extensions.findSome? fun
    | .keyUsage ku => some ku
    | _ => none

/-- Typed getter: first AuthorityKeyIdentifier entry (extension.rs,
`get_authority_key_identifier`). -/
def Certificate.get_authority_key_identifier (c : Certificate) : Option AuthorityKeyIdentifier :=
  c.parsed_extensions.findSome? fun
    | .authorityKeyIdentifier aki => some aki
    | _ => none

/-- Typed getter: first SubjectKeyIdentifier entry (extension.rs,
`get_subject_key_identifier`). -/
def Certificate.get_subject_key_identifier (c : Certificate) : Option (List Nat) :=
  c.parsed_extensions.findSome? fun
    | .subjectKeyIdentifier ski => some ski
    | _ => none

/-- Temporal validity check (validate.rs lines 11-36): Immature when
now precedes notBefore, Expired when notAfter precedes now, else Ok.
`not_before.to_system_time() > now` is `now < notBefore`. -/
def validate_period (now : Int) (c : Certificate) : Except PkiError Unit :=
  if now < c.notBefore then
    .error (.certificate .certificateImmature)
  else if c.notAfter < now then
    .error (.certificate .certificateExpired)
  else
    .ok ()

/-- External cryptographic collaborators, abstracted: the key-byte and
signature-byte well-formedness tests and the verify primitives of
ed25519-dalek and the ecdsa crate with the P-256 and P-384 curves.  Each
verify takes key bytes, message bytes, signature bytes. -/
structure Crypto where
  ed25519KeyOk : List Nat → Bool
  ed25519SigOk : List Nat → Bool
  ed25519Verify : List Nat → List Nat → List Nat → Bool
  p256KeyOk : List Nat → Bool
  p256SigOk : List Nat → Bool
  p256Verify : List Nat → List Nat → List Nat → Bool
  p384KeyOk : List Nat → Bool
  p384SigOk : List Nat → Bool
  p384Verify : List Nat → List Nat → List Nat → Bool

/-- One algorithm adapter (the bodies of the three dispatch arms of
verify.rs plus `SignatureVerifier::verify_certificate`): extract the
verifying key from the issuer SPKI bytes (absent or malformed key fails),
re-serialize the subject TBS bytes, decode the subject signature bytes
(absent or malformed fails), and run the primitive verification.  The
redundant algorithm-OID asserts inside the `TryFrom` impls always hold in
dispatch context and are omitted. -/
def runAdapter (keyOk : List Nat → Bool) (sigOk : List Nat → Bool)
    (verify : List Nat → List Nat → List Nat → Bool)
    (issuer subject : Certificate) : Except PkiError Unit :=
  match issuer.spkiKeyBytes with
  | none => .error (.signature .pkcs8)
  | some kb =>
    if keyOk kb then
      match subject.sigBytes with
      | none => .error (.signature .signatureFailure)
      | some sb =>
        if sigOk sb then
          if verify kb subject.tbsBytes sb then .ok ()
          else .error (.signature .signatureFailure)
        else .error (.signature .signatureMalformed)
    else .error (.signature .pkcs8)

/-- Signature-verification dispatch (verify.rs, `Certificate::verify_signature`):
compare the issuer SPKI algorithm identifier with the subject declared
signature-algorithm identifier (mismatch is fatal before any
cryptographic work), then dispatch on the OID to the Ed25519,
ECDSA-P256/SHA-256 or ECDSA-P384/SHA-384 adapter, else AlgorithmUnsupported. -/
def verify_signature (cr : Crypto) (issuer subject : Certificate) : Except PkiError Unit :=
  if issuer.spkiAlg ≠ subject.sigAlg then
    .error (.certificate .algorithmMismatch)
  else if issuer.spkiAlg.oid = ED_25519_OID then
    runAdapter cr.ed25519KeyOk cr.ed25519SigOk cr.ed25519Verify issuer subject
  else if issuer.spkiAlg.oid = ECDSA_SHA256_OID then
    runAdapter cr.p256KeyOk cr.p256SigOk cr.p256Verify issuer subject
  else if issuer.spkiAlg.oid = ECDSA_SHA384_OID then
    runAdapter cr.p384KeyOk cr.p384SigOk cr.p384Verify issuer subject
  else
    .error (.certificate .algorithmUnsupported)

/-- Basic-constraints step of the walk (validate.rs lines 86-97): when the
current certificate carries BasicConstraints, ca = false is fatal and the
declared path-length constraint is recorded; when the extension is absent
nothing is checked and nothing is recorded. -/
def bcCheck (current : Certificate) : Except PkiError (Option (Option Nat)) :=
  match current.get_basic_constraints with
  | some bc =>
    if !bc.ca then .error (.certificate .basicConstraintsViolation)
    else .ok (some bc.path_len_constraint)
  | none => .ok none

/-- Key-usage step of the walk (validate.rs lines 101-109): when the current
certificate carries KeyUsage, the keyCertSign bit must be set; absence of
the extension is accepted. -/
def kuCheck (current : Certificate) : Except PkiError Unit :=
  match current.get_key_usage with
  | some ku =>
    if ku.bits.testBit keyCertSignBit then .ok ()
    else .error (.certificate .keyUsageViolation)
  | none => .ok ()

/-- Key-identifier linkage step (validate.rs lines 120-138): when the next
certificate carries AuthorityKeyIdentifier, its key identifier (when
present, and when the current certificate has a SubjectKeyIdentifier)
must equal that SubjectKeyIdentifier, and its authority-cert serial
number (when present) must equal the current serial number. -/
def skiAkiCheck (current next : Certificate) : Except PkiError Unit :=
  match next.get_authority_key_identifier with
  | none => .ok ()
  | some aki =>
    let kiStep : Except PkiError Unit :=
      match aki.key_identifier, current.get_subject_key_identifier with
      | some ki, some ski =>
        if ki ≠ ski then .error (.certificate .authorityKeyIdentifierMismatch)
        else .ok ()
      | _, _ => .ok ()
    match kiStep with
    | .error e => .error e
    | .ok _ =>
      match aki.authority_cert_serial_number with
      | some acsn =>
        if acsn ≠ current.serialNumber then
          .error (.certificate .authorityKeyIdentifierMismatch)
        else .ok ()
      | none => .ok ()

/-- The full adjacent-pair block of validate_path (validate.rs lines 75-143):
basic constraints, then key usage, then issuer-subject name linkage, then
key-identifier linkage, then signature verification; returns the recorded
path-length entry when the current certificate carried BasicConstraints. -/
def pairChecks (cr : Crypto) (current next : Certificate) :
    Except PkiError (Option (Option Nat)) :=
  match bcCheck current with
  | .error e => .error e
  | .ok recorded =>
    match kuCheck current with
    | .error e => .error e
    | .ok _ =>
      if current.subject ≠ next.issuer then
        .error (.certificate .issuerSubjectMismatch)
      else
        match skiAkiCheck current next with
        | .error e => .error e
        | .ok _ =>
          match verify_signature cr current next with
          | .error e => .error e
          | .ok _ => .ok recorded

/-- The walk loop of validate_path (validate.rs lines 62-144) over the
remaining node list, carrying the recorded path-length entries.  The first
component of the result is the list of nodes on which validate_period was
invoked, in invocation order (the instrumentation needed to state claim
C7); the second is the loop result: the complete recorded-entry list on
success, or the first error. -/
def walkAux (cr : Crypto) (now : Int) :
    List Certificate → List (Option Nat) →
      List Certificate × Except PkiError (List (Option Nat))
  | [], acc => ([], .ok acc)
  | current :: rest, acc =>
    match validate_period now current with
    | .error e => ([current], .error e)
    | .ok _ =>
      match rest with
      | [] => ([current], .ok acc)
      | next :: _ =>
        match pairChecks cr current next with
        | .error e => ([current], .error e)
        | .ok (some plc) =>
          let r := walkAux cr now rest (acc ++ [plc])
          (current :: r.1, r.2)
        | .ok none =>
          let r := walkAux cr now rest acc
          (current :: r.1, r.2)

/-- Result of a validate_path run.  `overflow` models the Rust panic of the
final pass when `path_len_constraints` is empty: `path_len_constraints.len() - 1`
on `usize` underflows (validate.rs line 150), an arithmetic overflow that
panics under overflow checks. -/
inductive Outcome where
  | ok
  | error (e : PkiError)
  | overflow
deriving DecidableEq, Repr

/-- Final path-length pass (validate.rs lines 151-157): for each recorded
entry at index i that declared a constraint k, the number of entries
strictly after it, `path_len - i`, must not exceed k.  Indices stay at or
below `path_len`, so the Nat truncated subtraction agrees with the usize
subtraction of the source. -/
def finalPassLoop (path_len : Nat) : Nat → List (Option Nat) → Except PkiError Unit
  | _, [] => .ok ()
  | i, v :: rest =>
    match v with
    | some k =>
      if path_len - i > k then .error (.certificate .basicConstraintsViolation)
      else finalPassLoop path_len (i + 1) rest
    | none => finalPassLoop path_len (i + 1) rest

/-- The walk sequence of validate_path: trust anchor, then intermediates in
chain order, then leaf (validate.rs line 56 with the CertificateChain
iterator of mod.rs lines 217-223). -/
def walkSequence (chain : CertificateChain) (trust_anchor : Certificate) :
    List Certificate :=
  trust_anchor :: (chain.intermediates ++ [chain.leaf])

/-- Path validation (validate.rs, `CertificateChain::validate_path`): run the
walk, then the final path-length pass over the recorded entries, where
`path_len_constraints.len() - 1` overflows when no entry was recorded. -/
def validate_path (cr : Crypto) (now : Int) (chain : CertificateChain)
    (trust_anchor : Certificate) : Outcome :=
  match (walkAux cr now (walkSequence chain trust_anchor) []).2 with
  | .error e => .error e
  | .ok plcs =>
    match plcs with
    | [] => .overflow
    | _ :: _ =>
      match finalPassLoop (plcs.length - 1) 0 plcs with
      | .error e => .error e
      | .ok _ => .ok

end Pki

namespace Pki

/-- claim C8: for every certificate and time, validate_period fails
Immature when now < notBefore; otherwise fails Expired when
now > notAfter; succeeds when notBefore ≤ now ≤ notAfter — in
particular a time exactly equal to notBefore or notAfter (of a
well-ordered validity window) is accepted. -/
theorem c8_validate_period_cases (now : Int) (c : Certificate) :
    (now < c.notBefore →
      validate_period now c = .error (.certificate .certificateImmature)) ∧
    (¬ now < c.notBefore → c.notAfter < now →
      validate_period now c = .error (.certificate .certificateExpired)) ∧
    (c.notBefore ≤ now → now ≤ c.notAfter →
      validate_period now c = .ok ()) ∧
    (c.notBefore ≤ c.notAfter → (now = c.notBefore ∨ now = c.notAfter) →
      validate_period now c = .ok ()) := by
  refine ⟨?_, ?_, ?_, ?_⟩
  · intro h
    simp [validate_period, h]
  · intro h1 h2
    simp [validate_period, h1, h2]
  · intro h1 h2
    simp [validate_period, not_lt.mpr h1, not_lt.mpr h2]
  · intro hord hb
    rcases hb with hb | hb <;> subst hb <;>
      simp [validate_period, not_lt.mpr hord, not_lt.mpr (le_refl _)]

/-- Concrete certificate with validity window [10, 20], used by witnesses. -/
def certWindow : Certificate where
  subject := 0
  issuer := 0
  serialNumber := []
  notBefore := 10
  notAfter := 20
  spkiAlg := ⟨ED_25519_OID, none⟩
  spkiKeyBytes := some []
  sigAlg := ⟨ED_25519_OID, none⟩
  sigBytes := some []
  tbsBytes := []
  parsed_extensions := []

/-- Concrete crypto collaborator that accepts every key, signature and
verification query. -/
def cryptoAccept : Crypto where
  ed25519KeyOk := fun _ => true
  ed25519SigOk := fun _ => true
  ed25519Verify := fun _ _ _ => true
  p256KeyOk := fun _ => true
  p256SigOk := fun _ => true
  p256Verify := fun _ _ _ => true
  p384KeyOk := fun _ => true
  p384SigOk := fun _ => true
  p384Verify := fun _ _ _ => true

/-- Concrete crypto collaborator that rejects every query. -/
def cryptoReject : Crypto where
  ed25519KeyOk := fun _ => false
  ed25519SigOk := fun _ => false
  ed25519Verify := fun _ _ _ => false
  p256KeyOk := fun _ => false
  p256SigOk := fun _ => false
  p256Verify := fun _ _ _ => false
  p384KeyOk := fun _ => false
  p384SigOk := fun _ => false
  p384Verify := fun _ _ _ => false

/-- Issuer whose SPKI algorithm (Ed25519) differs from the declared
signature algorithm of certAlgMismatchSubject. -/
def certAlgMismatchIssuer : Certificate :=
  { certWindow with spkiAlg := ⟨ED_25519_OID, none⟩ }

/-- Subject declaring ECDSA-SHA256 as its signature algorithm. -/
def certAlgMismatchSubject : Certificate :=
  { certWindow with sigAlg := ⟨ECDSA_SHA256_OID, none⟩ }

/-- Certificate whose algorithm identifiers agree but use an OID outside
the supported set. -/
def certAlgUnknown : Certificate :=
  { certWindow with spkiAlg := ⟨[9, 9], none⟩, sigAlg := ⟨[9, 9], none⟩ }

/-- Witness for c8_validate_period_cases at a concrete certificate
(window [10, 20]) and the times 5, 25, 15, 10. -/
theorem c8_witness :
    validate_period 5 certWindow = .error (.certificate .certificateImmature) ∧
    validate_period 25 certWindow = .error (.certificate .certificateExpired) ∧
    validate_period 15 certWindow = .ok () ∧
    validate_period 10 certWindow = .ok () := by
  refine ⟨(c8_validate_period_cases 5 certWindow).1 (by decide),
          (c8_validate_period_cases 25 certWindow).2.1 (by decide) (by decide),
          (c8_validate_period_cases 15 certWindow).2.2.1 (by decide) (by decide),
          (c8_validate_period_cases 10 certWindow).2.2.2 (by decide) (Or.inl (by decide))⟩

end Pki

namespace Pki

/-- claim C5: for every pair of certificates, verify_signature first
compares the issuer SPKI algorithm identifier with the subject declared
signature-algorithm identifier and fails with AlgorithmMismatch on
mismatch before performing any cryptographic work — the result is the
same for every crypto collaborator — and when the identifiers match but
the OID is outside the supported set (Ed25519, ECDSA with SHA-256, ECDSA
with SHA-384) it fails with AlgorithmUnsupported. -/
theorem c5_algorithm_dispatch (cr cr2 : Crypto) (issuer subject : Certificate) :
    (issuer.spkiAlg ≠ subject.sigAlg →
      verify_signature cr issuer subject
          = .error (.certificate .algorithmMismatch) ∧
      verify_signature cr issuer subject = verify_signature cr2 issuer subject) ∧
    (issuer.spkiAlg = subject.sigAlg →
      issuer.spkiAlg.oid ≠ ED_25519_OID →
      issuer.spkiAlg.oid ≠ ECDSA_SHA256_OID →
      issuer.spkiAlg.oid ≠ ECDSA_SHA384_OID →
      verify_signature cr issuer subject
          = .error (.certificate .algorithmUnsupported)) := by
  constructor
  · intro h
    constructor <;> simp [verify_signature, h]
  · intro h h1 h2 h3
    rw [h] at h1 h2 h3
    simp [verify_signature, h, h1, h2, h3]

/-- Witness for c5_algorithm_dispatch: a concrete Ed25519 issuer against an
ECDSA-SHA256 subject gives AlgorithmMismatch under both a fully accepting
and a fully rejecting crypto collaborator, and a matching but unknown OID
gives AlgorithmUnsupported. -/
theorem c5_witness :
    verify_signature cryptoAccept certAlgMismatchIssuer certAlgMismatchSubject
        = .error (.certificate .algorithmMismatch) ∧
    verify_signature cryptoAccept certAlgMismatchIssuer certAlgMismatchSubject
        = verify_signature cryptoReject certAlgMismatchIssuer certAlgMismatchSubject ∧
    verify_signature cryptoAccept certAlgUnknown certAlgUnknown
        = .error (.certificate .algorithmUnsupported) := by
  have h1 := (c5_algorithm_dispatch cryptoAccept cryptoReject
    certAlgMismatchIssuer certAlgMismatchSubject).1 (by decide)
  have h2 := (c5_algorithm_dispatch cryptoAccept cryptoReject
    certAlgUnknown certAlgUnknown).2 (by decide) (by decide) (by decide) (by decide)
  exact ⟨h1.1, h1.2, h2⟩

end Pki

namespace Pki

/-- Trust anchor carrying no extensions at all — in particular no
BasicConstraints — self-referential name token 1. -/
def anchorNoBC : Certificate :=
  { certWindow with
      subject := 1
      issuer := 1 }

/-- Intermediate CA: BasicConstraints ca = true without a path-length
constraint, issued by name token 1, subject name token 2. -/
def interCA : Certificate :=
  { certWindow with
      subject := 2
      issuer := 1
      parsed_extensions := [.basicConstraints ⟨true, none⟩] }

/-- Leaf certificate without extensions, issued by name token 2. -/
def leafA : Certificate :=
  { certWindow with
      subject := 3
      issuer := 2 }

/-- Chain of one intermediate plus a leaf. -/
def chainIL : CertificateChain := ⟨[interCA], leafA⟩

/-- Trust anchor marked CA with pathLenConstraint 0. -/
def anchorPL0 : Certificate :=
  { certWindow with
      subject := 1
      issuer := 1
      parsed_extensions := [.basicConstraints ⟨true, some 0⟩] }

/-- Trust anchor marked CA (no path-length constraint) with a KeyUsage
extension whose keyCertSign bit (bit 5, value 32) is set. -/
def anchorCA : Certificate :=
  { certWindow with
      subject := 1
      issuer := 1
      parsed_extensions := [.basicConstraints ⟨true, none⟩, .keyUsage ⟨32⟩] }

/-- Leaf certificate that itself carries BasicConstraints ca = true,
issued directly by name token 1. -/
def leafCA : Certificate :=
  { certWindow with
      subject := 2
      issuer := 1
      parsed_extensions := [.basicConstraints ⟨true, none⟩] }

/-- Chain consisting of only that CA-marked leaf. -/
def chainLeafCA : CertificateChain := ⟨[], leafCA⟩

/-- Extension-free leaf issued directly by name token 1. -/
def leafB : Certificate :=
  { certWindow with
      subject := 2
      issuer := 1 }

/-- Chain consisting of only that extension-free leaf. -/
def chainLeafOnly : CertificateChain := ⟨[], leafB⟩

/-- Whether a certificate carries BasicConstraints with ca = true. -/
def isCAcert (c : Certificate) : Bool :=
  match c.get_basic_constraints with
  | some bc => bc.ca
  | none => false

/-- claim C1: the claim says a walk node in the issuer role that lacks the
BasicConstraints extension makes validate_path fail with
BasicConstraintsViolation; evaluating the code on a chain whose trust
anchor carries no BasicConstraints at all (while every other check
passes) returns Ok instead: validate.rs guards the whole basic-constraints
step behind `if let Some(bc)`, so absence is silently accepted and
nothing is recorded. -/
theorem c1_missing_basic_constraints_accepted :
    anchorNoBC.get_basic_constraints = none ∧
    validate_path cryptoAccept 15 chainIL anchorNoBC = .ok := by
  constructor
  · rfl
  · decide

/-- claim C3: the claim says validate_path is total and never panics, in
particular when no path-length entry is recorded before the final pass;
evaluating the code on a chain whose walk completes with no node in the
issuer role carrying BasicConstraints shows the walk succeeding with an
empty recorded list, after which `path_len_constraints.len() - 1`
(validate.rs line 150) underflows on usize — an arithmetic overflow that
panics under overflow checks. -/
theorem c3_final_pass_underflow :
    (walkAux cryptoAccept 15 (walkSequence chainLeafOnly anchorNoBC) []).2
        = .ok [] ∧
    validate_path cryptoAccept 15 chainLeafOnly anchorNoBC = .overflow := by
  constructor
  · rfl
  · decide

/-- claim C4 counterexample: a trust anchor declaring pathLenConstraint 0
followed directly by a leaf that itself carries BasicConstraints
ca = true.  The count of CA certificates strictly following the anchor in
the walk sequence is 1 > 0, so the claim as stated demands
BasicConstraintsViolation, but validate_path returns Ok: the final pass
only counts recorded entries, and the leaf (never in the issuer role)
records none. -/
theorem c4_counterexample :
    anchorPL0.get_basic_constraints = some ⟨true, some 0⟩ ∧
    List.countP isCAcert (chainLeafCA.intermediates ++ [chainLeafCA.leaf]) = 1 ∧
    validate_path cryptoAccept 15 chainLeafCA anchorPL0 = .ok := by
  refine ⟨rfl, by decide, by decide⟩

end Pki

namespace Pki

/-- Whether a certificate passes the key-usage rule of the walk: either no
KeyUsage extension, or one with the keyCertSign bit set. -/
def kuOk (c : Certificate) : Bool :=
  match c.get_key_usage with
  | some ku => ku.bits.testBit keyCertSignBit
  | none => true

/-- The path-length entries a completed walk records over a node list: one
entry per non-final node carrying BasicConstraints, in walk order. -/
def recordedOf (seq : List Certificate) : List (Option Nat) :=
  seq.dropLast.filterMap fun c =>
    (c.get_basic_constraints).map (·.path_len_constraint)

theorem bcCheck_ok_entry (c : Certificate) (r : Option (Option Nat))
    (h : bcCheck c = .ok r) :
    r = (c.get_basic_constraints).map (·.path_len_constraint) := by
  unfold bcCheck at h
  repeat' split at h
  all_goals simp_all

theorem kuCheck_eq (c : Certificate) :
    kuCheck c = if kuOk c then .ok () else .error (.certificate .keyUsageViolation) := by
  unfold kuCheck kuOk
  repeat' split
  all_goals simp_all

theorem bcCheck_ne_kuv (c : Certificate) :
    bcCheck c ≠ .error (.certificate .keyUsageViolation) := by
  unfold bcCheck
  repeat' split
  all_goals simp_all

theorem skiAkiCheck_ne_kuv (a b : Certificate) :
    skiAkiCheck a b ≠ .error (.certificate .keyUsageViolation) := by
  unfold skiAkiCheck
  repeat' split
  all_goals simp_all

theorem runAdapter_ne_kuv (ko so : List Nat → Bool)
    (v : List Nat → List Nat → List Nat → Bool) (a b : Certificate) :
    runAdapter ko so v a b ≠ .error (.certificate .keyUsageViolation) := by
  unfold runAdapter
  repeat' split
  all_goals simp_all

theorem verify_signature_ne_kuv (cr : Crypto) (a b : Certificate) :
    verify_signature cr a b ≠ .error (.certificate .keyUsageViolation) := by
  unfold verify_signature
  repeat' split
  all_goals first
    | exact runAdapter_ne_kuv _ _ _ _ _
    | simp_all

theorem validate_period_ne_kuv (now : Int) (c : Certificate) :
    validate_period now c ≠ .error (.certificate .keyUsageViolation) := by
  unfold validate_period
  repeat' split
  all_goals simp_all

theorem finalPassLoop_error (path_len : Nat) :
    ∀ (l : List (Option Nat)) (i : Nat) (e : PkiError),
      finalPassLoop path_len i l = .error e →
      e = .certificate .basicConstraintsViolation := by
  intro l
  induction l with
  | nil => intro i e h; simp [finalPassLoop] at h
  | cons v rest ih =>
    intro i e h
    unfold finalPassLoop at h
    split at h
    · split at h
      · simp_all
      · exact ih (i + 1) e h
    · exact ih (i + 1) e h

theorem pairChecks_ok_bc (cr : Crypto) (a b : Certificate)
    (r : Option (Option Nat)) (h : pairChecks cr a b = .ok r) :
    bcCheck a = .ok r := by
  unfold pairChecks at h
  repeat' split at h
  all_goals simp_all

theorem pairChecks_ok_ku (cr : Crypto) (a b : Certificate)
    (r : Option (Option Nat)) (h : pairChecks cr a b = .ok r) :
    kuOk a = true := by
  unfold pairChecks at h
  rw [kuCheck_eq] at h
  repeat' split at h
  all_goals simp_all

theorem pairChecks_kuv (cr : Crypto) (a b : Certificate)
    (h : pairChecks cr a b = .error (.certificate .keyUsageViolation)) :
    kuOk a = false := by
  unfold pairChecks at h
  rw [kuCheck_eq] at h
  repeat' split at h
  all_goals
    simp_all [bcCheck_ne_kuv, skiAkiCheck_ne_kuv, verify_signature_ne_kuv]

end Pki

namespace Pki

theorem walkAux_nil (cr : Crypto) (now : Int) (acc : List (Option Nat)) :
    walkAux cr now [] acc = ([], .ok acc) := rfl

theorem walkAux_period_error (cr : Crypto) (now : Int) (c : Certificate)
    (rest : List Certificate) (acc : List (Option Nat)) (e : PkiError)
    (h : validate_period now c = .error e) :
    walkAux cr now (c :: rest) acc = ([c], .error e) := by
  cases rest <;> simp only [walkAux, h]

theorem walkAux_single_ok (cr : Crypto) (now : Int) (c : Certificate)
    (acc : List (Option Nat)) (u : Unit)
    (h : validate_period now c = .ok u) :
    walkAux cr now [c] acc = ([c], .ok acc) := by
  simp only [walkAux, h]

theorem walkAux_pair_error (cr : Crypto) (now : Int) (c next : Certificate)
    (rs : List Certificate) (acc : List (Option Nat)) (u : Unit) (e : PkiError)
    (h1 : validate_period now c = .ok u)
    (h2 : pairChecks cr c next = .error e) :
    walkAux cr now (c :: next :: rs) acc = ([c], .error e) := by
  simp only [walkAux, h1, h2]

theorem walkAux_step_some (cr : Crypto) (now : Int) (c next : Certificate)
    (rs : List Certificate) (acc : List (Option Nat)) (u : Unit) (plc : Option Nat)
    (h1 : validate_period now c = .ok u)
    (h2 : pairChecks cr c next = .ok (some plc)) :
    walkAux cr now (c :: next :: rs) acc =
      (c :: (walkAux cr now (next :: rs) (acc ++ [plc])).1,
        (walkAux cr now (next :: rs) (acc ++ [plc])).2) := by
  simp only [walkAux, h1, h2]

theorem walkAux_step_none (cr : Crypto) (now : Int) (c next : Certificate)
    (rs : List Certificate) (acc : List (Option Nat)) (u : Unit)
    (h1 : validate_period now c = .ok u)
    (h2 : pairChecks cr c next = .ok none) :
    walkAux cr now (c :: next :: rs) acc =
      (c :: (walkAux cr now (next :: rs) acc).1,
        (walkAux cr now (next :: rs) acc).2) := by
  simp only [walkAux, h1, h2]

end Pki

namespace Pki

/-- Specification of a completed walk: the period-check trace is exactly the
whole node list, the recorded entries extend the accumulator with the
path-length declarations of the BasicConstraints-carrying non-final nodes,
and every non-final node passed the key-usage rule. -/
theorem walkAux_ok_spec (cr : Crypto) (now : Int) :
    ∀ (seq : List Certificate) (acc out : List (Option Nat)),
      (walkAux cr now seq acc).2 = .ok out →
      (walkAux cr now seq acc).1 = seq ∧
      out = acc ++ recordedOf seq ∧
      ∀ c ∈ seq.dropLast, kuOk c = true := by
  intro seq
  induction seq with
  | nil =>
    intro acc out h
    rw [walkAux_nil] at h
    simp only [Except.ok.injEq] at h
    subst h
    exact ⟨rfl, by simp [recordedOf, List.dropLast], by simp [List.dropLast]⟩
  | cons c rest ih =>
    intro acc out h
    cases rest with
    | nil =>
      cases hp : validate_period now c with
      | error e =>
        rw [walkAux_period_error cr now c [] acc e hp] at h
        simp at h
      | ok u =>
        rw [walkAux_single_ok cr now c acc u hp] at h ⊢
        simp only [Except.ok.injEq] at h
        subst h
        exact ⟨rfl, by simp [recordedOf, List.dropLast], by simp [List.dropLast]⟩
    | cons next rs =>
      cases hp : validate_period now c with
      | error e =>
        rw [walkAux_period_error cr now c (next :: rs) acc e hp] at h
        simp at h
      | ok u =>
        cases hpc : pairChecks cr c next with
        | error e =>
          rw [walkAux_pair_error cr now c next rs acc u e hp hpc] at h
          simp at h
        | ok r =>
          have hbc := bcCheck_ok_entry c r (pairChecks_ok_bc cr c next r hpc)
          have hku := pairChecks_ok_ku cr c next r hpc
          cases r with
          | some plc =>
            rw [walkAux_step_some cr now c next rs acc u plc hp hpc] at h ⊢
            simp only at h
            obtain ⟨ht, ho, hk⟩ := ih (acc ++ [plc]) out h
            refine ⟨by simp [ht], ?_, ?_⟩
            · rw [ho]
              simp only [recordedOf, List.dropLast, List.filterMap_cons, ← hbc]
              simp [List.append_assoc]
            · intro x hx
              simp only [List.dropLast, List.mem_cons] at hx
              rcases hx with hx | hx
              · subst hx; exact hku
              · exact hk x (by simpa [List.dropLast] using hx)
          | none =>
            rw [walkAux_step_none cr now c next rs acc u hp hpc] at h ⊢
            simp only at h
            obtain ⟨ht, ho, hk⟩ := ih acc out h
            refine ⟨by simp [ht], ?_, ?_⟩
            · rw [ho]
              simp only [recordedOf, List.dropLast, List.filterMap_cons, ← hbc]
            · intro x hx
              simp only [List.dropLast, List.mem_cons] at hx
              rcases hx with hx | hx
              · subst hx; exact hku
              · exact hk x (by simpa [List.dropLast] using hx)

end Pki

namespace Pki

/-- claim C7: validate_path performs the temporal-validity check
(validate_period) exactly once on every node of the walk sequence trust
anchor, intermediates in chain order, leaf — the leaf included: on a walk
that is not aborted, the instrumented period-check trace equals the walk
sequence itself, which contains the leaf. -/
theorem c7_period_checked_every_node (cr : Crypto) (now : Int)
    (chain : CertificateChain) (anchor : Certificate)
    (plcs : List (Option Nat))
    (h : (walkAux cr now (walkSequence chain anchor) []).2 = .ok plcs) :
    (walkAux cr now (walkSequence chain anchor) []).1
        = walkSequence chain anchor ∧
    chain.leaf ∈ walkSequence chain anchor := by
  refine ⟨(walkAux_ok_spec cr now _ [] plcs h).1, ?_⟩
  simp [walkSequence]

/-- Witness for c7_period_checked_every_node on a concrete three-node chain
whose walk completes. -/
theorem c7_witness :
    (walkAux cryptoAccept 15 (walkSequence chainIL anchorCA) []).1
        = walkSequence chainIL anchorCA ∧
    chainIL.leaf ∈ walkSequence chainIL anchorCA :=
  c7_period_checked_every_node cryptoAccept 15 chainIL anchorCA [none, none] rfl

/-- A walk that aborts with KeyUsageViolation does so because some node in
the issuer role carries a KeyUsage extension without the keyCertSign bit. -/
theorem walkAux_kuv_source (cr : Crypto) (now : Int) :
    ∀ (seq : List Certificate) (acc : List (Option Nat)),
      (walkAux cr now seq acc).2 = .error (.certificate .keyUsageViolation) →
      ∃ c ∈ seq.dropLast, kuOk c = false := by
  intro seq
  induction seq with
  | nil =>
    intro acc h
    rw [walkAux_nil] at h
    simp at h
  | cons c rest ih =>
    intro acc h
    cases rest with
    | nil =>
      cases hp : validate_period now c with
      | error e =>
        rw [walkAux_period_error cr now c [] acc e hp] at h
        simp only [Except.error.injEq] at h
        subst h
        exact absurd hp (validate_period_ne_kuv now c)
      | ok u =>
        rw [walkAux_single_ok cr now c acc u hp] at h
        simp at h
    | cons next rs =>
      cases hp : validate_period now c with
      | error e =>
        rw [walkAux_period_error cr now c (next :: rs) acc e hp] at h
        simp only [Except.error.injEq] at h
        subst h
        exact absurd hp (validate_period_ne_kuv now c)
      | ok u =>
        cases hpc : pairChecks cr c next with
        | error e =>
          rw [walkAux_pair_error cr now c next rs acc u e hp hpc] at h
          simp only [Except.error.injEq] at h
          subst h
          exact ⟨c, by simp [List.dropLast], pairChecks_kuv cr c next hpc⟩
        | ok r =>
          cases r with
          | some plc =>
            rw [walkAux_step_some cr now c next rs acc u plc hp hpc] at h
            simp only at h
            obtain ⟨x, hx, hko⟩ := ih (acc ++ [plc]) h
            refine ⟨x, ?_, hko⟩
            simp only [List.dropLast, List.mem_cons]
            exact Or.inr hx
          | none =>
            rw [walkAux_step_none cr now c next rs acc u hp hpc] at h
            simp only at h
            obtain ⟨x, hx, hko⟩ := ih acc h
            refine ⟨x, ?_, hko⟩
            simp only [List.dropLast, List.mem_cons]
            exact Or.inr hx

/-- claim C9: in validate_path, every node in the issuer role (every node of
the walk sequence that has a successor) with a KeyUsage extension must
have the keyCertSign bit: on a completed walk every such node passes the
rule (absence of the extension counted as passing), and a
KeyUsageViolation outcome always names a node in the issuer role whose
KeyUsage extension lacks the bit — absence of the extension is never the
cause. -/
theorem c9_key_usage (cr : Crypto) (now : Int) (chain : CertificateChain)
    (anchor : Certificate) :
    (∀ plcs, (walkAux cr now (walkSequence chain anchor) []).2 = .ok plcs →
      ∀ c ∈ (walkSequence chain anchor).dropLast, kuOk c = true) ∧
    (validate_path cr now chain anchor
        = .error (.certificate .keyUsageViolation) →
      ∃ c ∈ (walkSequence chain anchor).dropLast, kuOk c = false) := by
  constructor
  · intro plcs h
    exact (walkAux_ok_spec cr now _ [] plcs h).2.2
  · intro h
    unfold validate_path at h
    cases hw : (walkAux cr now (walkSequence chain anchor) []).2 with
    | error e =>
      rw [hw] at h
      simp only [Outcome.error.injEq] at h
      subst h
      exact walkAux_kuv_source cr now _ [] hw
    | ok plcs =>
      rw [hw] at h
      cases plcs with
      | nil => simp at h
      | cons v rest =>
        simp only at h
        cases hf : finalPassLoop ((v :: rest).length - 1) 0 (v :: rest) with
        | error e =>
          rw [hf] at h
          simp only [Outcome.error.injEq] at h
          subst h
          exact absurd (finalPassLoop_error _ _ _ _ hf) (by simp)
        | ok u =>
          rw [hf] at h
          simp at h

/-- Witness for c9_key_usage: on a concrete completed walk the anchor (which
carries KeyUsage with keyCertSign) and the intermediate (which carries
none) both pass the rule. -/
theorem c9_witness :
    kuOk anchorCA = true ∧ kuOk interCA = true := by
  have h := (c9_key_usage cryptoAccept 15 chainIL anchorCA).1 [none, none] rfl
  constructor
  · exact h anchorCA (by simp [walkSequence, chainIL, List.dropLast])
  · exact h interCA (by simp [walkSequence, chainIL, List.dropLast])

end Pki

namespace Pki

/-- The final pass rejects as soon as any recorded entry declares a
constraint smaller than the number of entries after it. -/
theorem finalPassLoop_violation (path_len : Nat) :
    ∀ (l : List (Option Nat)) (j : Nat),
      (∃ i k, l.get? i = some (some k) ∧ path_len - (j + i) > k) →
      finalPassLoop path_len j l
        = .error (.certificate .basicConstraintsViolation) := by
  intro l
  induction l with
  | nil =>
    rintro j ⟨i, k, hget, hgt⟩
    simp at hget
  | cons v rest ih =>
    rintro j ⟨i, k, hget, hgt⟩
    cases i with
    | zero =>
      simp only [List.get?_cons_zero, Option.some.injEq] at hget
      subst hget
      simp only [Nat.add_zero] at hgt
      simp [finalPassLoop, hgt]
    | succ m =>
      simp only [List.get?_cons_succ] at hget
      cases v with
      | some k0 =>
        by_cases hcond : path_len - j > k0
        · simp [finalPassLoop, hcond]
        · simp only [finalPassLoop, gt_iff_lt, if_neg (by omega : ¬ k0 < path_len - j)]
          exact ih (j + 1) ⟨m, k, hget, by omega⟩
      | none =>
        simp only [finalPassLoop]
        exact ih (j + 1) ⟨m, k, hget, by omega⟩

/-- claim C4 (amended): in the final pass, for every recorded path-length
entry — one entry per issuer-role node (node with a successor) carrying
BasicConstraints — that declares a constraint k, if the number of recorded
entries strictly after it (the CA certificates in the issuer role that
follow it; the leaf is never counted) exceeds k, validate_path fails with
BasicConstraintsViolation; the recorded entries are exactly the
path-length declarations of the BasicConstraints-carrying non-final walk
nodes, in walk order. -/
theorem c4_path_len_violation (cr : Crypto) (now : Int)
    (chain : CertificateChain) (anchor : Certificate)
    (plcs : List (Option Nat)) (i k : Nat)
    (hw : (walkAux cr now (walkSequence chain anchor) []).2 = .ok plcs)
    (hi : plcs.get? i = some (some k))
    (hx : plcs.length - 1 - i > k) :
    validate_path cr now chain anchor
        = .error (.certificate .basicConstraintsViolation) ∧
    plcs = recordedOf (walkSequence chain anchor) := by
  have hspec := walkAux_ok_spec cr now _ [] plcs hw
  refine ⟨?_, by simpa using hspec.2.1⟩
  unfold validate_path
  rw [hw]
  cases plcs with
  | nil => simp at hi
  | cons v rest =>
    have hv := finalPassLoop_violation ((v :: rest).length - 1) (v :: rest) 0
      ⟨i, k, hi, by simpa using hx⟩
    simp only [hv]

/-- Witness for c4_path_len_violation: the anchor declares
pathLenConstraint 0 and is followed by a CA intermediate in the issuer
role, so validate_path fails with BasicConstraintsViolation. -/
theorem c4_witness :
    validate_path cryptoAccept 15 chainIL anchorPL0
        = .error (.certificate .basicConstraintsViolation) :=
  (c4_path_len_violation cryptoAccept 15 chainIL anchorPL0
    [some 0, none] 0 0 rfl (by decide) (by decide)).1

end Pki

namespace Pki

/-- Replace only the parsed extension list of a certificate, keeping every
other field (the decoded inner certificate data). -/
def Certificate.withExts (c : Certificate) (exts : List Extension) : Certificate :=
  { c with parsed_extensions := exts }

/-- Whether an extension entry is a BasicConstraints or KeyUsage entry. -/
def isBCorKU : Extension → Bool
  | .basicConstraints _ => true
  | .keyUsage _ => true
  | _ => false

/-- First AuthorityKeyIdentifier of an extension list. -/
def akiOf (l : List Extension) : Option AuthorityKeyIdentifier :=
  l.findSome? fun
    | .authorityKeyIdentifier aki => some aki
    | _ => none

theorem get_aki_eq_akiOf (c : Certificate) :
    c.get_authority_key_identifier = akiOf c.parsed_extensions := rfl

theorem akiOf_filter :
    ∀ l : List Extension, akiOf l = akiOf (l.filter fun e => !isBCorKU e) := by
  intro l
  induction l with
  | nil => rfl
  | cons e rest ih =>
    cases e <;>
      simp [akiOf, List.filter_cons, List.findSome?_cons, isBCorKU] <;>
      simpa [akiOf] using ih

theorem get_aki_congr (c : Certificate) (exts2 : List Extension)
    (h : (c.parsed_extensions.filter fun e => !isBCorKU e)
          = (exts2.filter fun e => !isBCorKU e)) :
    (c.withExts exts2).get_authority_key_identifier
      = c.get_authority_key_identifier := by
  rw [get_aki_eq_akiOf, get_aki_eq_akiOf]
  show akiOf exts2 = akiOf c.parsed_extensions
  rw [akiOf_filter exts2, akiOf_filter c.parsed_extensions, h]

theorem validate_period_withExts (now : Int) (c : Certificate)
    (exts : List Extension) :
    validate_period now (c.withExts exts) = validate_period now c := rfl

theorem verify_signature_withExts (cr : Crypto) (a c : Certificate)
    (exts : List Extension) :
    verify_signature cr a (c.withExts exts) = verify_signature cr a c := rfl

theorem withExts_issuer (c : Certificate) (exts : List Extension) :
    (c.withExts exts).issuer = c.issuer := rfl

theorem skiAkiCheck_next_congr (a c : Certificate) (exts2 : List Extension)
    (h : (c.parsed_extensions.filter fun e => !isBCorKU e)
          = (exts2.filter fun e => !isBCorKU e)) :
    skiAkiCheck a (c.withExts exts2) = skiAkiCheck a c := by
  unfold skiAkiCheck
  rw [get_aki_congr c exts2 h]

theorem pairChecks_next_congr (cr : Crypto) (a c : Certificate)
    (exts2 : List Extension)
    (h : (c.parsed_extensions.filter fun e => !isBCorKU e)
          = (exts2.filter fun e => !isBCorKU e)) :
    pairChecks cr a (c.withExts exts2) = pairChecks cr a c := by
  unfold pairChecks
  rw [skiAkiCheck_next_congr a c exts2 h, verify_signature_withExts,
    withExts_issuer]

end Pki

namespace Pki

/-- Replacing only the BasicConstraints and KeyUsage entries of the final
node (the leaf) does not change the walk result: the leaf is only ever
period-checked and read through its issuer name, AuthorityKeyIdentifier,
declared signature algorithm, signature bytes and TBS bytes. -/
theorem walkAux_leaf_congr (cr : Crypto) (now : Int) (l : Certificate)
    (exts2 : List Extension)
    (h : (l.parsed_extensions.filter fun e => !isBCorKU e)
          = (exts2.filter fun e => !isBCorKU e)) :
    ∀ (ws : List Certificate) (acc : List (Option Nat)),
      (walkAux cr now (ws ++ [l.withExts exts2]) acc).2
        = (walkAux cr now (ws ++ [l]) acc).2 := by
  intro ws
  induction ws with
  | nil =>
    intro acc
    cases hp : validate_period now l with
    | error e =>
      rw [List.nil_append, List.nil_append,
        walkAux_period_error cr now _ [] acc e
          (by rw [validate_period_withExts]; exact hp),
        walkAux_period_error cr now l [] acc e hp]
    | ok u =>
      rw [List.nil_append, List.nil_append,
        walkAux_single_ok cr now _ acc u
          (by rw [validate_period_withExts]; exact hp),
        walkAux_single_ok cr now l acc u hp]
  | cons c ws' ih =>
    intro acc
    cases hp : validate_period now c with
    | error e =>
      rw [List.cons_append, List.cons_append,
        walkAux_period_error cr now c (ws' ++ [l.withExts exts2]) acc e hp,
        walkAux_period_error cr now c (ws' ++ [l]) acc e hp]
    | ok u =>
      cases ws' with
      | nil =>
        cases hpc : pairChecks cr c l with
        | error e =>
          rw [List.cons_append, List.nil_append, List.cons_append,
            List.nil_append,
            walkAux_pair_error cr now c (l.withExts exts2) [] acc u e hp
              (by rw [pairChecks_next_congr cr c l exts2 h]; exact hpc),
            walkAux_pair_error cr now c l [] acc u e hp hpc]
        | ok r =>
          cases r with
          | some plc =>
            rw [List.cons_append, List.nil_append, List.cons_append,
              List.nil_append,
              walkAux_step_some cr now c (l.withExts exts2) [] acc u plc hp
                (by rw [pairChecks_next_congr cr c l exts2 h]; exact hpc),
              walkAux_step_some cr now c l [] acc u plc hp hpc]
            exact ih (acc ++ [plc])
          | none =>
            rw [List.cons_append, List.nil_append, List.cons_append,
              List.nil_append,
              walkAux_step_none cr now c (l.withExts exts2) [] acc u hp
                (by rw [pairChecks_next_congr cr c l exts2 h]; exact hpc),
              walkAux_step_none cr now c l [] acc u hp hpc]
            exact ih acc
      | cons w ws'' =>
        cases hpc : pairChecks cr c w with
        | error e =>
          rw [List.cons_append, List.cons_append, List.cons_append,
            List.cons_append,
            walkAux_pair_error cr now c w (ws'' ++ [l.withExts exts2]) acc u e
              hp hpc,
            walkAux_pair_error cr now c w (ws'' ++ [l]) acc u e hp hpc]
        | ok r =>
          cases r with
          | some plc =>
            rw [List.cons_append, List.cons_append, List.cons_append,
              List.cons_append,
              walkAux_step_some cr now c w (ws'' ++ [l.withExts exts2]) acc u
                plc hp hpc,
              walkAux_step_some cr now c w (ws'' ++ [l]) acc u plc hp hpc]
            simpa using ih (acc ++ [plc])
          | none =>
            rw [List.cons_append, List.cons_append, List.cons_append,
              List.cons_append,
              walkAux_step_none cr now c w (ws'' ++ [l.withExts exts2]) acc u
                hp hpc,
              walkAux_step_none cr now c w (ws'' ++ [l]) acc u hp hpc]
            simpa using ih acc

/-- claim C10: the result of validate_path does not depend on the leaf
certificate parsed BasicConstraints or KeyUsage entries: replacing the
leaf extension list by any list that agrees on the non-BasicConstraints,
non-KeyUsage entries (all other leaf fields, in particular the TBS bytes,
unchanged) gives the same result — the leaf never occupies the issuer
role, so its CA flag and key-usage bits are never inspected. -/
theorem c10_leaf_extension_independence (cr : Crypto) (now : Int)
    (ints : List Certificate) (l : Certificate) (exts2 : List Extension)
    (anchor : Certificate)
    (h : (l.parsed_extensions.filter fun e => !isBCorKU e)
          = (exts2.filter fun e => !isBCorKU e)) :
    validate_path cr now ⟨ints, l.withExts exts2⟩ anchor
      = validate_path cr now ⟨ints, l⟩ anchor := by
  unfold validate_path
  have hw := walkAux_leaf_congr cr now l exts2 h (anchor :: ints) []
  simp only [List.cons_append] at hw
  simp only [walkSequence]
  rw [hw]

/-- Witness for c10_leaf_extension_independence: adding a BasicConstraints
ca = false entry to the leaf of a concrete chain leaves the validation
result unchanged. -/
theorem c10_witness :
    validate_path cryptoAccept 15
        ⟨[interCA], leafA.withExts [.basicConstraints ⟨false, none⟩]⟩ anchorCA
      = validate_path cryptoAccept 15 ⟨[interCA], leafA⟩ anchorCA :=
  c10_leaf_extension_independence cryptoAccept 15 [interCA] leafA
    [.basicConstraints ⟨false, none⟩] anchorCA (by decide)

end Pki

namespace Pki

/-- Raw (undecoded) extension entry as the codec delivers it
(models `x509_cert::ext::Extension`): OID, criticality flag, payload bytes. -/
structure RawExtension where
  oid : OID
  critical : Bool
  bytes : List Nat
deriving DecidableEq, Repr

/-- BasicConstraints extension OID 2.5.29.19. -/
def BC_OID : OID := [2, 5, 29, 19]

/-- KeyUsage extension OID 2.5.29.15. -/
def KU_OID : OID := [2, 5, 29, 15]

/-- ExtendedKeyUsage extension OID 2.5.29.37. -/
def EKU_OID : OID := [2, 5, 29, 37]

/-- SubjectAltName extension OID 2.5.29.17. -/
def SAN_OID : OID := [2, 5, 29, 17]

/-- AuthorityKeyIdentifier extension OID 2.5.29.35. -/
def AKI_OID : OID := [2, 5, 29, 35]

/-- SubjectKeyIdentifier extension OID 2.5.29.14. -/
def SKI_OID : OID := [2, 5, 29, 14]

/-- CertificatePolicies extension OID 2.5.29.32. -/
def CP_OID : OID := [2, 5, 29, 32]

/-- The seven OIDs the extension parser recognizes. -/
def recognizedOids : List OID :=
  [BC_OID, KU_OID, EKU_OID, SAN_OID, AKI_OID, SKI_OID, CP_OID]

/-- External DER payload decoders (the from_der functions of the
x509_cert payload types, collaborators outside the repository),
abstracted as partial functions from payload bytes. -/
structure Decoders where
  decodeBC : List Nat → Option BasicConstraints
  decodeKU : List Nat → Option KeyUsage
  decodeEKU : List Nat → Option (List Nat)
  decodeSAN : List Nat → Option (List Nat)
  decodeAKI : List Nat → Option AuthorityKeyIdentifier
  decodeSKI : List Nat → Option (List Nat)
  decodeCP : List Nat → Option (List Nat)

/-- Typed decode of one raw extension (extension.rs lines 26-48): dispatch
on the OID to the seven payload decoders — a decode failure surfaces the
DER error — and an unrecognized OID is the UnsupportedExtension error
carrying that OID. -/
def tryFromExtension (d : Decoders) (e : RawExtension) : Except PkiError Extension :=
  if e.oid = BC_OID then
    match d.decodeBC e.bytes with
    | some v => .ok (.basicConstraints v)
    | none => .error .asn1
  else if e.oid = KU_OID then
    match d.decodeKU e.bytes with
    | some v => .ok (.keyUsage v)
    | none => .error .asn1
  else if e.oid = EKU_OID then
    match d.decodeEKU e.bytes with
    | some v => .ok (.extendedKeyUsage v)
    | none => .error .asn1
  else if e.oid = SAN_OID then
    match d.decodeSAN e.bytes with
    | some v => .ok (.subjectAlternativeName v)
    | none => .error .asn1
  else if e.oid = AKI_OID then
    match d.decodeAKI e.bytes with
    | some v => .ok (.authorityKeyIdentifier v)
    | none => .error .asn1
  else if e.oid = SKI_OID then
    match d.decodeSKI e.bytes with
    | some v => .ok (.subjectKeyIdentifier v)
    | none => .error .asn1
  else if e.oid = CP_OID then
    match d.decodeCP e.bytes with
    | some v => .ok (.certificatePolicies v)
    | none => .error .asn1
  else
    .error (.certificate (.unsupportedExtension e.oid))

/-- The extension-list processing of certificate construction
(mod.rs lines 162-173, the filter_map plus Result collect): entries are
processed in order; a failing entry is dropped when non-critical and
aborts with its error when critical; successful entries are kept in input
order. -/
def parseExtensions (d : Decoders) : List RawExtension → Except PkiError (List Extension)
  | [] => .ok []
  | e :: rest =>
    match tryFromExtension d e with
    | .ok v =>
      match parseExtensions d rest with
      | .ok vs => .ok (v :: vs)
      | .error err => .error err
    | .error err =>
      if !e.critical then parseExtensions d rest
      else .error err

/-- Whether the typed decode of a raw entry succeeds. -/
def entryOk (d : Decoders) (e : RawExtension) : Bool :=
  match tryFromExtension d e with
  | .ok _ => true
  | .error _ => false

/-- The successfully decoded value of a raw entry, when any. -/
def entryValue (d : Decoders) (e : RawExtension) : Option Extension :=
  match tryFromExtension d e with
  | .ok v => some v
  | .error _ => none

/-- Decoders that fail on every payload. -/
def decodersNone : Decoders where
  decodeBC := fun _ => none
  decodeKU := fun _ => none
  decodeEKU := fun _ => none
  decodeSAN := fun _ => none
  decodeAKI := fun _ => none
  decodeSKI := fun _ => none
  decodeCP := fun _ => none

/-- Decoders that succeed on every payload with a fixed value. -/
def decodersSome : Decoders where
  decodeBC := fun _ => some ⟨true, none⟩
  decodeKU := fun _ => some ⟨32⟩
  decodeEKU := fun b => some b
  decodeSAN := fun b => some b
  decodeAKI := fun _ => some ⟨none, none⟩
  decodeSKI := fun b => some b
  decodeCP := fun b => some b

/-- A non-critical BasicConstraints entry whose payload fails to decode. -/
def badBCExt : RawExtension := ⟨BC_OID, false, [9]⟩

/-- claim C2 counterexample: a recognized extension (BasicConstraints OID)
whose payload fails to decode is silently dropped when non-critical —
construction succeeds with the entry omitted — whereas the claim says a
decode failure of a recognized kind aborts construction regardless of the
critical flag.  The filter_map guard of mod.rs line 170 drops every
non-critical failure, decode failures of recognized kinds included. -/
theorem c2_counterexample :
    tryFromExtension decodersNone badBCExt = .error .asn1 ∧
    badBCExt.critical = false ∧
    parseExtensions decodersNone [badBCExt] = .ok [] := by
  refine ⟨rfl, rfl, rfl⟩

/-- claim C2 (amended): in certificate construction, each entry whose OID is
recognized is decoded per its schema, and a failing entry — decode
failure of a recognized kind or unrecognized OID alike — aborts
construction with its error when critical and is silently dropped when
non-critical; an unrecognized OID produces the UnsupportedExtension error
carrying that OID; successfully decoded entries appear in the output in
input order. -/
theorem c2_extension_parsing (d : Decoders) :
    (∀ exts : List RawExtension,
      (∀ e ∈ exts, entryOk d e = true ∨ e.critical = false) →
      parseExtensions d exts = .ok (exts.filterMap fun e => entryValue d e)) ∧
    (∀ (pre : List RawExtension) (e : RawExtension) (post : List RawExtension)
        (err : PkiError),
      (∀ x ∈ pre, entryOk d x = true ∨ x.critical = false) →
      tryFromExtension d e = .error err →
      e.critical = true →
      parseExtensions d (pre ++ e :: post) = .error err) ∧
    (∀ e : RawExtension, e.oid ∉ recognizedOids →
      tryFromExtension d e = .error (.certificate (.unsupportedExtension e.oid))) := by
  refine ⟨?_, ?_, ?_⟩
  · intro exts
    induction exts with
    | nil => intro _; rfl
    | cons e rest ih =>
      intro hall
      have he := hall e (List.mem_cons_self e rest)
      have hrest := fun x hx => hall x (List.mem_cons_of_mem e hx)
      cases ht : tryFromExtension d e with
      | ok v =>
        simp only [parseExtensions, ht, ih hrest, List.filterMap_cons,
          entryValue, ht]
      | error err =>
        have hcrit : e.critical = false := by
          rcases he with he | he
          · exact absurd he (by simp [entryOk, ht])
          · exact he
        simp [parseExtensions, ht, hcrit, List.filterMap_cons,
          entryValue, ih hrest]
  · intro pre
    induction pre with
    | nil =>
      intro e post err _ ht hcrit
      simp only [List.nil_append, parseExtensions, ht, hcrit]
      rfl
    | cons x pre' ih =>
      intro e post err hall ht hcrit
      have hx := hall x (List.mem_cons_self x pre')
      have hpre' := fun y hy => hall y (List.mem_cons_of_mem x hy)
      cases hx2 : tryFromExtension d x with
      | ok v =>
        simp [List.cons_append, parseExtensions, hx2,
          ih e post err hpre' ht hcrit]
      | error e2 =>
        have hc : x.critical = false := by
          rcases hx with hx | hx
          · exact absurd hx (by simp [entryOk, hx2])
          · exact hx
        simp [List.cons_append, parseExtensions, hx2, hc,
          ih e post err hpre' ht hcrit]
  · intro e h
    simp only [recognizedOids, List.mem_cons, List.not_mem_nil, or_false,
      not_or] at h
    obtain ⟨h1, h2, h3, h4, h5, h6, h7⟩ := h
    simp [tryFromExtension, h1, h2, h3, h4, h5, h6, h7]

/-- Witness for c2_extension_parsing: a critical BasicConstraints entry that
decodes plus a non-critical unrecognized entry yield exactly the decoded
BasicConstraints value, and a critical unrecognized entry yields the
UnsupportedExtension error carrying its OID. -/
theorem c2_witness :
    parseExtensions decodersSome [⟨BC_OID, true, []⟩, ⟨[9, 9, 9], false, []⟩]
        = .ok [.basicConstraints ⟨true, none⟩] ∧
    tryFromExtension decodersSome ⟨[9, 9, 9], true, [0]⟩
        = .error (.certificate (.unsupportedExtension [9, 9, 9])) := by
  have h := c2_extension_parsing decodersSome
  constructor
  · have h1 := h.1 [⟨BC_OID, true, []⟩, ⟨[9, 9, 9], false, []⟩] (by decide)
    rw [h1]
    rfl
  · exact h.2.2 ⟨[9, 9, 9], true, [0]⟩ (by decide)

end Pki

namespace Pki

/-- Public chain constructor (mod.rs line 189, `pub fn new`): any caller can
assemble a chain directly from intermediates and a leaf. -/
def CertificateChain.new (intermediates : List Certificate)
    (leaf : Certificate) : CertificateChain :=
  ⟨intermediates, leaf⟩

/-- The typestate wrapper of the staged builder
(mod.rs line 231, `CertificateChainBuilder<State>(State)`). -/
structure CertificateChainBuilder (σ : Type) where
  state : σ

/-- Initial builder stage: no leaf yet (mod.rs line 239). -/
structure WantsLeaf where
  unit : Unit

/-- Builder stage holding the leaf, awaiting intermediates (mod.rs line 251). -/
structure WantsIntermediates where
  leaf : Certificate

/-- Final builder stage: leaf and intermediates set; more intermediates may
be appended (mod.rs line 268, `Optional`). -/
structure Optional where
  leaf : Certificate
  intermediates : List Certificate

/-- The Default impl of the builder (mod.rs lines 233-237). -/
def builderDefault : CertificateChainBuilder WantsLeaf := ⟨⟨()⟩⟩

/-- Stage transition set_leaf (mod.rs lines 243-248): only available on the
WantsLeaf stage, produces the WantsIntermediates stage. -/
def set_leaf (_b : CertificateChainBuilder WantsLeaf) (cert : Certificate) :
    CertificateChainBuilder WantsIntermediates :=
  ⟨⟨cert⟩⟩

/-- Stage transition set_intermediates (mod.rs lines 257-265): only
available once the leaf is set. -/
def set_intermediates (b : CertificateChainBuilder WantsIntermediates)
    (certs : List Certificate) : CertificateChainBuilder Optional :=
  ⟨⟨b.state.leaf, certs⟩⟩

/-- add_intermediates (mod.rs lines 275-283): appends further
intermediates on the final stage. -/
def add_intermediates (b : CertificateChainBuilder Optional)
    (certs : List Certificate) : CertificateChainBuilder Optional :=
  ⟨⟨b.state.leaf, b.state.intermediates ++ certs⟩⟩

/-- build (mod.rs lines 286-290): finalize the chain; always succeeds. -/
def build (b : CertificateChainBuilder Optional) :
    Except PkiError CertificateChain :=
  .ok (CertificateChain.new b.state.intermediates b.state.leaf)

/-- The public operations that produce a CertificateChain: the direct
public constructor `new`, or the full staged-builder pipeline
default → set_leaf → set_intermediates → add_intermediates* → build (the
stage types admit no other order: set_intermediates needs the stage that
only set_leaf produces). -/
inductive ChainConstruction where
  | viaNew (intermediates : List Certificate) (leaf : Certificate)
  | viaBuilder (leaf : Certificate) (intermediates : List Certificate)
      (additional : List (List Certificate))

/-- The leaf certificate an operation was given. -/
def suppliedLeaf : ChainConstruction → Certificate
  | .viaNew _ l => l
  | .viaBuilder l _ _ => l

/-- Whether the operation is the staged-builder pipeline. -/
def usesBuilder : ChainConstruction → Bool
  | .viaNew _ _ => false
  | .viaBuilder _ _ _ => true

/-- Run a public construction. -/
def runConstruction : ChainConstruction → Except PkiError CertificateChain
  | .viaNew is l => .ok (CertificateChain.new is l)
  | .viaBuilder l is adds =>
    build (adds.foldl add_intermediates (set_intermediates (set_leaf builderDefault l) is))

/-- The chain a public construction denotes. -/
def chainOf : ChainConstruction → CertificateChain
  | .viaNew is l => CertificateChain.new is l
  | .viaBuilder l is adds =>
    CertificateChain.new (adds.foldl (fun acc cs => acc ++ cs) is) l

theorem foldl_add_intermediates_state (adds : List (List Certificate)) :
    ∀ b : CertificateChainBuilder Optional,
      (adds.foldl add_intermediates b).state.intermediates
          = adds.foldl (fun acc cs => acc ++ cs) b.state.intermediates ∧
      (adds.foldl add_intermediates b).state.leaf = b.state.leaf := by
  induction adds with
  | nil => intro b; exact ⟨rfl, rfl⟩
  | cons a rest ih =>
    intro b
    rw [List.foldl_cons, List.foldl_cons]
    exact ih (add_intermediates b a)

/-- claim C6 counterexample: chain construction is not exclusive to the
staged builder — `CertificateChain::new` is public (mod.rs line 189) and
produces a chain through no builder stage. -/
theorem c6_counterexample :
    usesBuilder (ChainConstruction.viaNew [] certWindow) = false ∧
    runConstruction (ChainConstruction.viaNew [] certWindow)
        = .ok (CertificateChain.new [] certWindow) := by
  exact ⟨rfl, rfl⟩

/-- claim C6 (amended): a CertificateChain is produced publicly either
through the staged builder — whose stage types enforce that the leaf is
set before the intermediates — or through the public constructor
`CertificateChain::new`; every public construction succeeds only with the
supplied leaf installed as the chain leaf, so an incomplete chain (one
without a leaf) cannot be produced by any public operation. -/
theorem c6_chain_construction (k : ChainConstruction) :
    runConstruction k = .ok (chainOf k) ∧ (chainOf k).leaf = suppliedLeaf k := by
  cases k with
  | viaNew is l => exact ⟨rfl, rfl⟩
  | viaBuilder l is adds =>
    have h := foldl_add_intermediates_state adds
      (set_intermediates (set_leaf builderDefault l) is)
    constructor
    · simp only [runConstruction, build, chainOf]
      rw [h.1, h.2]
      rfl
    · rfl

end Pki

namespace Pki

/-- Witness for c6_chain_construction at a concrete builder pipeline. -/
theorem c6_witness :
    runConstruction (ChainConstruction.viaBuilder certWindow [] [])
        = .ok (chainOf (ChainConstruction.viaBuilder certWindow [] [])) ∧
    (chainOf (ChainConstruction.viaBuilder certWindow [] [])).leaf
        = certWindow :=
  c6_chain_construction (ChainConstruction.viaBuilder certWindow [] [])

end Pki
